import Mathlib

/-!
Verification of the installation-orchestration core of `pip/commands/install.py`
(the `InstallCommand.run` method, lines 196-297).

The method is embedded as an executable Lean function over:
  * `Options`  - the parsed command-line options object passed to `run`;
  * `Cmd`      - the command object (`self`): its `name`, `bundle` class flag
                 and `bundle_filename`;
  * `Env`      - the external world: filesystem queries (`os.path`),
                 `tempfile.mkdtemp`, `virtualenv_no_global`, the interpreter
                 version comparison, the setuptools `_distribute` attribute,
                 `parse_requirements`, and the outcome of each collaborator
                 phase of the `RequirementSet` (`prepare_files`,
                 `locate_files`, `install`).
The run produces a `RunResult`: an ordered trace of the observable effects
(collaborator calls, log messages, filesystem mutations), the exception
raised if any, the normalized options in force when the `RequirementSet` is
constructed, the final `install_options` list, and the returned
`RequirementSet`.
-/

/-- One requirement, as produced by `InstallRequirement.from_line` /
`from_editable` / `parse_requirements`. -/
structure Req where
  name : String
  editable : Bool
  vcs : Option String
deriving DecidableEq, Repr

/-- The fields of the parsed options object that `run` reads or mutates. -/
structure Options where
  download_dir : Option String
  download_cache : Option String
  build_dir : String
  src_dir : String
  target_dir : Option String
  upgrade : Bool
  force_reinstall : Bool
  ignore_installed : Bool
  ignore_dependencies : Bool
  no_install : Bool
  no_download : Bool
  install_options : Option (List String)
  global_options : Option (List String)
  use_user_site : Bool
  as_egg : Bool
  root_path : Option String
  index_url : String
  extra_index_urls : List String
  «no_index» : Bool
  find_links : List String
  editables : List String
  requirements : List String
  default_vcs : Option String
deriving DecidableEq, Repr

/-- The command object (`self`): `InstallCommand` has `name = "install"`,
`bundle = False`; the bundling subclass overrides `bundle` and sets
`bundle_filename`. -/
structure Cmd where
  name : String
  bundle : Bool
  bundle_filename : String
deriving DecidableEq, Repr

/-- Python truthiness of an optional string option (`None` and `""` are falsy). -/
def strTruthy : Option String → Bool
  | none => false
  | some s => !(s == "")

/-- `RequirementSet` as constructed at lines 222-241: the constructor
keyword arguments plus the requirements added to it. -/
structure RequirementSet where
  build_dir : String
  src_dir : String
  download_dir : Option String
  download_cache : Option String
  upgrade : Bool
  as_egg : Bool
  ignore_installed : Bool
  ignore_dependencies : Bool
  force_reinstall : Bool
  use_user_site : Bool
  reqs : List Req
deriving DecidableEq, Repr

/-- The external world and the outcomes of the collaborator calls. A phase
whose error field is `some m` raises an exception with message `m` when
called. -/
structure Env where
  virtualenv_no_global : Bool
  abspath : String → String
  mkdtemp_dir : String
  path_exists : String → Bool
  path_isdir : String → Bool
  version_lt_26 : Bool
  setuptools_has_distribute : Bool
  parse_reqs : String → List Req
  prepare_files_error : Option String
  locate_files_error : Option String
  install_error : Option String
  successfully_installed : List String
  successfully_downloaded : List String
  home_lib : String → String
  listdir : String → List String

/-- Observable effects of a run, in program order. -/
inductive Event where
  | notify (msg : String)
  | warn (msg : String)
  | mkdtemp (dir : String)
  | addRequirement (r : Req)
  | prepareFiles (forceRootEggInfo : Bool) (bundle : Bool)
  | locateFiles
  | install (iopts : List String) (gopts : List String) (root : Option String)
  | createBundle (filename : String)
  | cleanupFiles (bundle : Bool)
  | makedirs (dir : String)
  | move (src : String) (dst : String)
  | rmtree (dir : String)
deriving DecidableEq, Repr

/-- The exceptions `run` can raise: its own `InstallationError` and
`CommandError`, or an exception propagating out of a collaborator call. -/
inductive PipError where
  | installationError (msg : String)
  | commandError (msg : String)
  | collaboratorError (msg : String)
deriving DecidableEq, Repr

/-- Result of one invocation of `run`: the trace of effects, the exception
raised (if any), the normalized options in force when the `RequirementSet`
is constructed (`none` when normalization itself raised), the final
`install_options` list, and the returned `RequirementSet` (`none` on
exception or on the empty-collection early `return`). -/
structure RunResult where
  trace : List Event
  err : Option PipError
  plan : Option Options
  installOpts : Option (List String)
  ret : Option RequirementSet
deriving Repr

def pathJoin (a b : String) : String := a ++ "/" ++ b

/-- Message of line 205. -/
def userSiteVirtualenvMsg : String :=
  "Can not perform a \x27--user\x27 install. User site-packages are not visible in this virtualenv."

/-- Message of line 212. -/
def targetNotDirMsg : String :=
  "Target path exists but is not a directory, will not continue."

/-- Message of line 256. -/
def userVersionMsg : String :=
  "--user is only supported in Python version 2.6 and newer"

/-- Message of line 263. -/
def userEditableMsg : String :=
  "--user --editable not supported with setuptools, use distribute"

/-- The warning of lines 243-251, formatted. -/
def emptyReqMsg (name : String) (links : List String) : String :=
  if links.isEmpty then
    "You must give at least one requirement to " ++ name ++
      " (see \x22pip help " ++ name ++ "\x22)"
  else
    "You must give at least one requirement to " ++ name ++
      " (maybe you meant \x22pip " ++ name ++ " " ++
      String.intercalate " " links ++ "\x22?)"

/-- The requirement collection built at lines 233-241: positional arguments
via `InstallRequirement.from_line`, then editables via `from_editable`
(with the plan's default VCS hint), then each requirements file through
`parse_requirements`, in file order. -/
def collectedReqs (o : Options) (args : List String) (env : Env) : List Req :=
  args.map (fun n => { name := n, editable := false, vcs := none }) ++
  o.editables.map (fun n => { name := n, editable := true, vcs := o.default_vcs }) ++
  o.requirements.flatMap env.parse_reqs

/-- Lines 284-297: conditional cleanup of build artifacts, then the
target-directory relocation. `temp` is the `temp_target_dir` created at
line 209 when a target directory was given. -/
def finishRun (cmd : Cmd) (o : Options) (env : Env) (iopts : List String)
    (t : List Event) (rs : RequirementSet) (temp : Option String) : RunResult :=
  let t := t ++ (if !o.no_install || strTruthy o.download_dir then
    [Event.cleanupFiles cmd.bundle] else [])
  match o.target_dir with
  | some td =>
    if td = "" then ⟨t, none, some o, some iopts, some rs⟩
    else
      let tmp := temp.getD ""
      let t := t ++ (if !env.path_exists td then [Event.makedirs td] else [])
      let lib := env.home_lib tmp
      let t := t ++ (env.listdir lib).map
        (fun item => Event.move (pathJoin lib item) (pathJoin td item))
      ⟨t ++ [Event.rmtree tmp], none, some o, some iopts, some rs⟩
  | none => ⟨t, none, some o, some iopts, some rs⟩

/-- Lines 270-297: the mutually exclusive outcome phase (install /
download-only report / bundle), then cleanup and relocation. -/
def runPhases (cmd : Cmd) (o : Options) (env : Env) (iopts gopts : List String)
    (t : List Event) (rs : RequirementSet) (temp : Option String) : RunResult :=
  if !o.no_install && !cmd.bundle then
    let t := t ++ [Event.install iopts gopts o.root_path]
    match env.install_error with
    | some m => ⟨t, some (PipError.collaboratorError m), some o, some iopts, none⟩
    | none =>
      let installed := String.intercalate " " env.successfully_installed
      let t := t ++ (if installed ≠ "" then
        [Event.notify ("Successfully installed " ++ installed)] else [])
      finishRun cmd o env iopts t rs temp
  else if !cmd.bundle then
    let downloaded := String.intercalate " " env.successfully_downloaded
    let t := t ++ (if downloaded ≠ "" then
      [Event.notify ("Successfully downloaded " ++ downloaded)] else [])
    finishRun cmd o env iopts t rs temp
  else
    let t := t ++ [Event.createBundle cmd.bundle_filename,
      Event.notify ("Created bundle in " ++ cmd.bundle_filename)]
    finishRun cmd o env iopts t rs temp

/-- Lines 215-218: the informational notice emitted when `no_index` is
set, naming the index URLs being ignored. -/
def idxNotice (o : Options) : List Event :=
  if o.«no_index» then
    [Event.notify ("Ignoring indexes: " ++
      String.intercalate "," (o.index_url :: o.extra_index_urls))]
  else []

/-- Lines 222-241: the `RequirementSet` constructed from the normalized
options, after all three requirement sources are added to it. -/
def builtReqSet (o : Options) (args : List String) (env : Env) : RequirementSet :=
  { build_dir := o.build_dir, src_dir := o.src_dir,
    download_dir := o.download_dir, download_cache := o.download_cache,
    upgrade := o.upgrade, as_egg := o.as_egg,
    ignore_installed := o.ignore_installed,
    ignore_dependencies := o.ignore_dependencies,
    force_reinstall := o.force_reinstall,
    use_user_site := o.use_user_site, reqs := collectedReqs o args env }

/-- Lines 214-297: everything after option normalization. `iopts` is the
normalized `install_options` list, `t0` the trace so far, `temp` the
temporary redirect directory if one was created. -/
def runRest (cmd : Cmd) (o : Options) (args : List String) (env : Env)
    (iopts : List String) (t0 : List Event) (temp : Option String) : RunResult :=
  let gopts := o.global_options.getD []
  let t := t0 ++ idxNotice o
  let reqs := collectedReqs o args env
  let rs := builtReqSet o args env
  let t := t ++ reqs.map Event.addRequirement
  if reqs.isEmpty then
    ⟨t ++ [Event.warn (emptyReqMsg cmd.name o.find_links)], none, some o, some iopts, none⟩
  else if o.use_user_site && env.version_lt_26 then
    ⟨t, some (PipError.installationError userVersionMsg), some o, some iopts, none⟩
  else if o.use_user_site && reqs.any (fun r => r.editable) &&
      !env.setuptools_has_distribute then
    ⟨t, some (PipError.installationError userEditableMsg), some o, some iopts, none⟩
  else if !o.no_download then
    let t := t ++ [Event.prepareFiles cmd.bundle cmd.bundle]
    match env.prepare_files_error with
    | some m => ⟨t, some (PipError.collaboratorError m), some o, some iopts, none⟩
    | none => runPhases cmd o env iopts gopts t rs temp
  else
    let t := t ++ [Event.locateFiles]
    match env.locate_files_error with
    | some m => ⟨t, some (PipError.collaboratorError m), some o, some iopts, none⟩
    | none => runPhases cmd o env iopts gopts t rs temp

/-- Lines 197-201: option normalization. A download directory forces
`no_install` and `ignore_installed`; build and source directories are
made absolute. -/
def normOpts (o : Options) (env : Env) : Options :=
  let o := if strTruthy o.download_dir then
    { o with no_install := true, ignore_installed := true } else o
  { o with build_dir := env.abspath o.build_dir,
           src_dir := env.abspath o.src_dir }

/-- `InstallCommand.run(options, args)`, lines 196-297. -/
def run (cmd : Cmd) (o : Options) (args : List String) (env : Env) : RunResult :=
  let o := normOpts o env
  let iopts := o.install_options.getD []
  if o.use_user_site && env.virtualenv_no_global then
    ⟨[], some (PipError.installationError userSiteVirtualenvMsg), none, none, none⟩
  else
    let iopts := iopts ++ (if o.use_user_site then ["--user"] else [])
    match o.target_dir with
    | some s =>
      if s = "" then runRest cmd o args env iopts [] none
      else
        let o := { o with ignore_installed := true }
        let temp := env.mkdtemp_dir
        let td := env.abspath s
        let o := { o with target_dir := some td }
        if env.path_exists td && !env.path_isdir td then
          ⟨[Event.mkdtemp temp], some (PipError.commandError targetNotDirMsg),
            none, none, none⟩
        else
          runRest cmd o args env (iopts ++ ["--home=" ++ temp])
            [Event.mkdtemp temp] (some temp)
    | none => runRest cmd o args env iopts [] none

/-! ### Helper predicates on events -/

/-- Events that the post-acquisition part of the run (phase selection,
cleanup, relocation) can append to the trace. -/
def phaseAdded : Event → Bool
  | Event.install _ _ _ => true
  | Event.notify _ => true
  | Event.createBundle _ => true
  | Event.cleanupFiles _ => true
  | Event.makedirs _ => true
  | Event.move _ _ => true
  | Event.rmtree _ => true
  | _ => false

/-- Recognizer for warning events. -/
def isWarn : Event → Bool
  | Event.warn _ => true
  | _ => false

theorem mem_append_left_iff {α : Type} {e : α} {t u : List α} {p : α → Bool}
    (hall : u.all p = true) (he : p e = false) : e ∈ t ++ u ↔ e ∈ t := by
  simp only [List.mem_append, or_iff_left_iff_imp]
  intro hu
  exact absurd (List.all_eq_true.mp hall e hu) (by simp [he])

/-! ### Structural lemmas about the stages of `run` -/

theorem finishRun_plan (cmd : Cmd) (o : Options) (env : Env) (io : List String)
    (t : List Event) (rs : RequirementSet) (tt : Option String) :
    (finishRun cmd o env io t rs tt).plan = some o := by
  unfold finishRun
  dsimp only
  repeat' split
  all_goals rfl

theorem runPhases_plan (cmd : Cmd) (o : Options) (env : Env) (io gopts : List String)
    (t : List Event) (rs : RequirementSet) (tt : Option String) :
    (runPhases cmd o env io gopts t rs tt).plan = some o := by
  unfold runPhases
  dsimp only
  repeat' split
  all_goals first | rfl | apply finishRun_plan

theorem runRest_plan (cmd : Cmd) (o : Options) (args : List String) (env : Env)
    (io : List String) (t : List Event) (tt : Option String) :
    (runRest cmd o args env io t tt).plan = some o := by
  unfold runRest
  dsimp only
  repeat' split
  all_goals first | rfl | apply runPhases_plan

theorem finishRun_installOpts (cmd : Cmd) (o : Options) (env : Env) (io : List String)
    (t : List Event) (rs : RequirementSet) (tt : Option String) :
    (finishRun cmd o env io t rs tt).installOpts = some io := by
  unfold finishRun
  dsimp only
  repeat' split
  all_goals rfl

theorem runPhases_installOpts (cmd : Cmd) (o : Options) (env : Env) (io gopts : List String)
    (t : List Event) (rs : RequirementSet) (tt : Option String) :
    (runPhases cmd o env io gopts t rs tt).installOpts = some io := by
  unfold runPhases
  dsimp only
  repeat' split
  all_goals first | rfl | apply finishRun_installOpts

theorem runRest_installOpts (cmd : Cmd) (o : Options) (args : List String) (env : Env)
    (io : List String) (t : List Event) (tt : Option String) :
    (runRest cmd o args env io t tt).installOpts = some io := by
  unfold runRest
  dsimp only
  repeat' split
  all_goals first | rfl | apply runPhases_installOpts

theorem finishRun_traceShape (cmd : Cmd) (o : Options) (env : Env) (io : List String)
    (t : List Event) (rs : RequirementSet) (tt : Option String) :
    ∃ u, (finishRun cmd o env io t rs tt).trace = t ++ u ∧ u.all phaseAdded = true := by
  unfold finishRun
  dsimp only
  repeat' split
  all_goals try simp only [List.append_assoc]
  all_goals refine ⟨_, rfl, ?_⟩
  all_goals simp [List.all_append, List.all_eq_true, List.mem_map, phaseAdded]

theorem finishRun_traceShapePre (cmd : Cmd) (o : Options) (env : Env) (io : List String)
    (t C : List Event) (rs : RequirementSet) (tt : Option String)
    (hC : C.all phaseAdded = true) :
    ∃ u, (finishRun cmd o env io (t ++ C) rs tt).trace = t ++ u ∧ u.all phaseAdded = true := by
  obtain ⟨u, h1, h2⟩ := finishRun_traceShape cmd o env io (t ++ C) rs tt
  exact ⟨C ++ u, by simp [h1], by simp [List.all_append, hC, h2]⟩

theorem runPhases_traceShape (cmd : Cmd) (o : Options) (env : Env) (io gopts : List String)
    (t : List Event) (rs : RequirementSet) (tt : Option String) :
    ∃ u, (runPhases cmd o env io gopts t rs tt).trace = t ++ u ∧ u.all phaseAdded = true := by
  unfold runPhases
  dsimp only
  repeat' split
  all_goals try simp only [List.append_assoc]
  all_goals first
    | exact ⟨_, rfl, by simp [phaseAdded]⟩
    | exact finishRun_traceShapePre cmd o env io _ _ rs tt (by simp [phaseAdded])

/-- Events that the cleanup/relocation part (lines 284-296) can append. -/
def cleanupAdded : Event → Bool
  | Event.cleanupFiles _ => true
  | Event.makedirs _ => true
  | Event.move _ _ => true
  | Event.rmtree _ => true
  | _ => false

theorem all_imp {α : Type} {u : List α} {p q : α → Bool}
    (h : u.all p = true) (himp : ∀ e, p e = true → q e = true) : u.all q = true := by
  rw [List.all_eq_true] at h ⊢
  exact fun e he => himp e (h e he)

theorem cleanupAdded_phaseAdded (e : Event) :
    cleanupAdded e = true → phaseAdded e = true := by
  cases e <;> simp [cleanupAdded, phaseAdded]

theorem finishRun_traceShapeC (cmd : Cmd) (o : Options) (env : Env) (io : List String)
    (t : List Event) (rs : RequirementSet) (tt : Option String) :
    ∃ u, (finishRun cmd o env io t rs tt).trace = t ++ u ∧ u.all cleanupAdded = true := by
  unfold finishRun
  dsimp only
  repeat' split
  all_goals try simp only [List.append_assoc]
  all_goals refine ⟨_, rfl, ?_⟩
  all_goals simp [List.all_append, List.all_eq_true, List.mem_map, cleanupAdded]

theorem finishRun_mem {e : Event} (cmd : Cmd) (o : Options) (env : Env) (io : List String)
    (t : List Event) (rs : RequirementSet) (tt : Option String)
    (he : cleanupAdded e = false) :
    e ∈ (finishRun cmd o env io t rs tt).trace ↔ e ∈ t := by
  obtain ⟨u, h1, h2⟩ := finishRun_traceShapeC cmd o env io t rs tt
  rw [h1]
  exact mem_append_left_iff h2 he

theorem runPhases_mem {e : Event} (cmd : Cmd) (o : Options) (env : Env) (io gopts : List String)
    (t : List Event) (rs : RequirementSet) (tt : Option String)
    (he : phaseAdded e = false) :
    e ∈ (runPhases cmd o env io gopts t rs tt).trace ↔ e ∈ t := by
  obtain ⟨u, h1, h2⟩ := runPhases_traceShape cmd o env io gopts t rs tt
  rw [h1]
  exact mem_append_left_iff h2 he

theorem runPhases_trace_pre (cmd : Cmd) (o : Options) (env : Env) (io gopts : List String)
    (t pre : List Event) (rs : RequirementSet) (tt : Option String)
    (h : ∃ w, t = pre ++ w) :
    ∃ u, (runPhases cmd o env io gopts t rs tt).trace = pre ++ u := by
  obtain ⟨w, rfl⟩ := h
  obtain ⟨u, h1, _⟩ := runPhases_traceShape cmd o env io gopts (pre ++ w) rs tt
  exact ⟨w ++ u, by simp [h1]⟩

theorem finishRun_err (cmd : Cmd) (o : Options) (env : Env) (io : List String)
    (t : List Event) (rs : RequirementSet) (tt : Option String) :
    (finishRun cmd o env io t rs tt).err = none := by
  unfold finishRun
  dsimp only
  repeat' split
  all_goals rfl

theorem finishRun_ret (cmd : Cmd) (o : Options) (env : Env) (io : List String)
    (t : List Event) (rs : RequirementSet) (tt : Option String) :
    (finishRun cmd o env io t rs tt).ret = some rs := by
  unfold finishRun
  dsimp only
  repeat' split
  all_goals rfl

/-- Lines 281-283: with a bundling command variant, the bundle phase runs
regardless of `no_install`. -/
theorem runPhases_bundle (cmd : Cmd) (o : Options) (env : Env) (io gopts : List String)
    (t : List Event) (rs : RequirementSet) (tt : Option String)
    (hb : cmd.bundle = true) :
    runPhases cmd o env io gopts t rs tt =
      finishRun cmd o env io
        (t ++ [Event.createBundle cmd.bundle_filename,
          Event.notify ("Created bundle in " ++ cmd.bundle_filename)]) rs tt := by
  unfold runPhases
  simp [hb]

/-- Lines 276-280: no bundling, `no_install` set: the download-only report. -/
theorem runPhases_noinstall (cmd : Cmd) (o : Options) (env : Env) (io gopts : List String)
    (t : List Event) (rs : RequirementSet) (tt : Option String)
    (hb : cmd.bundle = false) (hni : o.no_install = true) :
    runPhases cmd o env io gopts t rs tt =
      finishRun cmd o env io
        (t ++ (if String.intercalate " " env.successfully_downloaded ≠ "" then
          [Event.notify ("Successfully downloaded " ++
            String.intercalate " " env.successfully_downloaded)] else [])) rs tt := by
  unfold runPhases
  simp [hb, hni]

/-- Lines 270-275: no bundling, installation requested and the install call
returns normally: the install phase and its report. -/
theorem runPhases_install (cmd : Cmd) (o : Options) (env : Env) (io gopts : List String)
    (t : List Event) (rs : RequirementSet) (tt : Option String)
    (hb : cmd.bundle = false) (hni : o.no_install = false)
    (hie : env.install_error = none) :
    runPhases cmd o env io gopts t rs tt =
      finishRun cmd o env io
        (t ++ [Event.install io gopts o.root_path] ++
          (if String.intercalate " " env.successfully_installed ≠ "" then
            [Event.notify ("Successfully installed " ++
              String.intercalate " " env.successfully_installed)] else [])) rs tt := by
  unfold runPhases
  simp [hb, hni, hie]

/-- Lines 270-272: no bundling, installation requested, and the install
call raises: the exception propagates with no further effects. -/
theorem runPhases_installErr (cmd : Cmd) (o : Options) (env : Env) (io gopts : List String)
    (t : List Event) (rs : RequirementSet) (tt : Option String) (m : String)
    (hb : cmd.bundle = false) (hni : o.no_install = false)
    (hie : env.install_error = some m) :
    runPhases cmd o env io gopts t rs tt =
      ⟨t ++ [Event.install io gopts o.root_path],
        some (PipError.collaboratorError m), some o, some io, none⟩ := by
  unfold runPhases
  simp [hb, hni, hie]

/-- The phase stage raises only exceptions propagating out of the install
call, and in that case it has performed nothing after the install call. -/
theorem runPhases_err (cmd : Cmd) (o : Options) (env : Env) (io gopts : List String)
    (t : List Event) (rs : RequirementSet) (tt : Option String) (e : PipError)
    (h : (runPhases cmd o env io gopts t rs tt).err = some e) :
    ∃ m, e = PipError.collaboratorError m ∧
      (runPhases cmd o env io gopts t rs tt).trace =
        t ++ [Event.install io gopts o.root_path] := by
  by_cases hb : cmd.bundle = true
  · rw [runPhases_bundle cmd o env io gopts t rs tt hb, finishRun_err] at h
    exact absurd h (by simp)
  · have hb' : cmd.bundle = false := by simpa using hb
    by_cases hni : o.no_install = true
    · rw [runPhases_noinstall cmd o env io gopts t rs tt hb' hni, finishRun_err] at h
      exact absurd h (by simp)
    · have hni' : o.no_install = false := by simpa using hni
      cases hie : env.install_error with
      | none =>
        rw [runPhases_install cmd o env io gopts t rs tt hb' hni' hie, finishRun_err] at h
        exact absurd h (by simp)
      | some m =>
        rw [runPhases_installErr cmd o env io gopts t rs tt m hb' hni' hie] at h
        refine ⟨m, ?_, ?_⟩
        · cases h; rfl
        · rw [runPhases_installErr cmd o env io gopts t rs tt m hb' hni' hie]

/-- The phase stage returns a `RequirementSet` only when it reached the
cleanup stage. -/
theorem runPhases_ret (cmd : Cmd) (o : Options) (env : Env) (io gopts : List String)
    (t : List Event) (rs rs' : RequirementSet) (tt : Option String)
    (h : (runPhases cmd o env io gopts t rs tt).ret = some rs') :
    (runPhases cmd o env io gopts t rs tt).err = none := by
  by_cases hb : cmd.bundle = true
  · rw [runPhases_bundle cmd o env io gopts t rs tt hb, finishRun_err]
  · have hb' : cmd.bundle = false := by simpa using hb
    by_cases hni : o.no_install = true
    · rw [runPhases_noinstall cmd o env io gopts t rs tt hb' hni, finishRun_err]
    · have hni' : o.no_install = false := by simpa using hni
      cases hie : env.install_error with
      | none =>
        rw [runPhases_install cmd o env io gopts t rs tt hb' hni' hie, finishRun_err]
      | some m =>
        rw [runPhases_installErr cmd o env io gopts t rs tt m hb' hni' hie] at h
        exact absurd h (by simp)

/-- Line 285: the build-artifact cleanup call appears in the trace exactly
when installation was not suppressed or a download directory was given. -/
theorem finishRun_cleanup (cmd : Cmd) (o : Options) (env : Env) (io : List String)
    (t : List Event) (rs : RequirementSet) (tt : Option String)
    (hc : Event.cleanupFiles cmd.bundle ∉ t) :
    (Event.cleanupFiles cmd.bundle ∈ (finishRun cmd o env io t rs tt).trace ↔
      (o.no_install = false ∨ strTruthy o.download_dir = true)) := by
  unfold finishRun
  dsimp only
  repeat' split
  all_goals simp_all [List.mem_append, List.mem_map, Bool.or_eq_true, Bool.not_eq_true']

/-- Lines 242-252: with an empty requirement collection the run warns and
returns `None` without invoking any collaborator phase. -/
theorem runRest_emptyEq (cmd : Cmd) (o : Options) (args : List String) (env : Env)
    (io : List String) (t0 : List Event) (tt : Option String)
    (h : collectedReqs o args env = []) :
    runRest cmd o args env io t0 tt =
      ⟨t0 ++ idxNotice o ++ [Event.warn (emptyReqMsg cmd.name o.find_links)],
        none, some o, some io, none⟩ := by
  unfold runRest
  simp [h]

/-- Lines 254-256: a nonempty collection with `use_user_site` on an
interpreter below 2.6 raises before any acquisition. -/
theorem runRest_versionErr (cmd : Cmd) (o : Options) (args : List String) (env : Env)
    (io : List String) (t0 : List Event) (tt : Option String)
    (hne : (collectedReqs o args env).isEmpty = false)
    (hv : (o.use_user_site && env.version_lt_26) = true) :
    runRest cmd o args env io t0 tt =
      ⟨t0 ++ idxNotice o ++ (collectedReqs o args env).map Event.addRequirement,
        some (PipError.installationError userVersionMsg), some o, some io, none⟩ := by
  unfold runRest
  simp [hne, hv]

/-- Lines 265-266 with a successful `prepare_files`: acquisition happens
and control passes to the phase stage. -/
theorem runRest_prepOk (cmd : Cmd) (o : Options) (args : List String) (env : Env)
    (io : List String) (t0 : List Event) (tt : Option String)
    (hne : (collectedReqs o args env).isEmpty = false)
    (hv : (o.use_user_site && env.version_lt_26) = false)
    (he : ((o.use_user_site && (collectedReqs o args env).any fun r => r.editable) &&
      !env.setuptools_has_distribute) = false)
    (hnd : o.no_download = false)
    (hpe : env.prepare_files_error = none) :
    runRest cmd o args env io t0 tt =
      runPhases cmd o env io (o.global_options.getD [])
        (t0 ++ idxNotice o ++ (collectedReqs o args env).map Event.addRequirement ++
          [Event.prepareFiles cmd.bundle cmd.bundle])
        (builtReqSet o args env) tt := by
  unfold runRest
  simp [hne, hv, he, hnd, hpe]

/-- Lines 265-266 with `prepare_files` raising: the exception propagates
with the acquisition call as the last effect. -/
theorem runRest_prepErr (cmd : Cmd) (o : Options) (args : List String) (env : Env)
    (io : List String) (t0 : List Event) (tt : Option String) (m : String)
    (hne : (collectedReqs o args env).isEmpty = false)
    (hv : (o.use_user_site && env.version_lt_26) = false)
    (he : ((o.use_user_site && (collectedReqs o args env).any fun r => r.editable) &&
      !env.setuptools_has_distribute) = false)
    (hnd : o.no_download = false)
    (hpe : env.prepare_files_error = some m) :
    runRest cmd o args env io t0 tt =
      ⟨t0 ++ idxNotice o ++ (collectedReqs o args env).map Event.addRequirement ++
        [Event.prepareFiles cmd.bundle cmd.bundle],
        some (PipError.collaboratorError m), some o, some io, none⟩ := by
  unfold runRest
  simp [hne, hv, he, hnd, hpe]

/-- Lines 267-268 with a successful `locate_files`. -/
theorem runRest_locOk (cmd : Cmd) (o : Options) (args : List String) (env : Env)
    (io : List String) (t0 : List Event) (tt : Option String)
    (hne : (collectedReqs o args env).isEmpty = false)
    (hv : (o.use_user_site && env.version_lt_26) = false)
    (he : ((o.use_user_site && (collectedReqs o args env).any fun r => r.editable) &&
      !env.setuptools_has_distribute) = false)
    (hnd : o.no_download = true)
    (hle : env.locate_files_error = none) :
    runRest cmd o args env io t0 tt =
      runPhases cmd o env io (o.global_options.getD [])
        (t0 ++ idxNotice o ++ (collectedReqs o args env).map Event.addRequirement ++
          [Event.locateFiles])
        (builtReqSet o args env) tt := by
  unfold runRest
  simp [hne, hv, he, hnd, hle]

/-- Lines 267-268 with `locate_files` raising. -/
theorem runRest_locErr (cmd : Cmd) (o : Options) (args : List String) (env : Env)
    (io : List String) (t0 : List Event) (tt : Option String) (m : String)
    (hne : (collectedReqs o args env).isEmpty = false)
    (hv : (o.use_user_site && env.version_lt_26) = false)
    (he : ((o.use_user_site && (collectedReqs o args env).any fun r => r.editable) &&
      !env.setuptools_has_distribute) = false)
    (hnd : o.no_download = true)
    (hle : env.locate_files_error = some m) :
    runRest cmd o args env io t0 tt =
      ⟨t0 ++ idxNotice o ++ (collectedReqs o args env).map Event.addRequirement ++
        [Event.locateFiles],
        some (PipError.collaboratorError m), some o, some io, none⟩ := by
  unfold runRest
  simp [hne, hv, he, hnd, hle]

/-! ### Normalization projections -/

theorem normOpts_use_user_site (o : Options) (env : Env) :
    (normOpts o env).use_user_site = o.use_user_site := by
  unfold normOpts; dsimp only; split <;> rfl

theorem normOpts_target_dir (o : Options) (env : Env) :
    (normOpts o env).target_dir = o.target_dir := by
  unfold normOpts; dsimp only; split <;> rfl

theorem normOpts_download_dir (o : Options) (env : Env) :
    (normOpts o env).download_dir = o.download_dir := by
  unfold normOpts; dsimp only; split <;> rfl

theorem normOpts_install_options (o : Options) (env : Env) :
    (normOpts o env).install_options = o.install_options := by
  unfold normOpts; dsimp only; split <;> rfl

theorem normOpts_no_install (o : Options) (env : Env) :
    (normOpts o env).no_install =
      (if strTruthy o.download_dir then true else o.no_install) := by
  unfold normOpts; dsimp only; split <;> rfl

theorem normOpts_ignore_installed (o : Options) (env : Env) :
    (normOpts o env).ignore_installed =
      (if strTruthy o.download_dir then true else o.ignore_installed) := by
  unfold normOpts; dsimp only; split <;> rfl

/-- Which branch of `run` executed, with the data each branch passed on. -/
theorem run_branches (cmd : Cmd) (o : Options) (args : List String) (env : Env) :
    run cmd o args env =
      ⟨[], some (PipError.installationError userSiteVirtualenvMsg), none, none, none⟩ ∨
    run cmd o args env =
      ⟨[Event.mkdtemp env.mkdtemp_dir], some (PipError.commandError targetNotDirMsg),
        none, none, none⟩ ∨
    (∃ p, run cmd o args env =
      runRest cmd p args env
        (o.install_options.getD [] ++ (if o.use_user_site then ["--user"] else []))
        [] none ∧
      (o.target_dir = none ∨ o.target_dir = some "") ∧ p = normOpts o env) ∨
    (∃ p s, run cmd o args env =
      runRest cmd p args env
        (o.install_options.getD [] ++ (if o.use_user_site then ["--user"] else []) ++
          ["--home=" ++ env.mkdtemp_dir])
        [Event.mkdtemp env.mkdtemp_dir] (some env.mkdtemp_dir) ∧
      o.target_dir = some s ∧ ¬s = "" ∧
      p = { normOpts o env with
            ignore_installed := true,
            target_dir := some (env.abspath s) }) := by
  unfold run
  dsimp only
  rw [normOpts_use_user_site, normOpts_target_dir, normOpts_install_options]
  split
  · exact Or.inl rfl
  · split
    · split
      · refine Or.inr (Or.inr (Or.inl ⟨normOpts o env, rfl, ?_, rfl⟩))
        right
        simp_all
      · split
        · exact Or.inr (Or.inl rfl)
        · refine Or.inr (Or.inr (Or.inr ⟨_, _, rfl, ?_, ?_, rfl⟩)) <;> simp_all
    · exact Or.inr (Or.inr (Or.inl ⟨normOpts o env, rfl, Or.inl (by simp_all), rfl⟩))

/-- When a run produced a plan, the run was exactly a `runRest` call on
that plan, in one of the two normalization shapes (without / with a
target-directory redirect). -/
theorem run_plan_inv (cmd : Cmd) (o : Options) (args : List String) (env : Env)
    (p : Options) (hp : (run cmd o args env).plan = some p) :
    (run cmd o args env =
       runRest cmd p args env
         (o.install_options.getD [] ++ (if o.use_user_site then ["--user"] else []))
         [] none ∧
     (o.target_dir = none ∨ o.target_dir = some "") ∧ p = normOpts o env) ∨
    (∃ s, run cmd o args env =
       runRest cmd p args env
         (o.install_options.getD [] ++ (if o.use_user_site then ["--user"] else []) ++
           ["--home=" ++ env.mkdtemp_dir])
         [Event.mkdtemp env.mkdtemp_dir] (some env.mkdtemp_dir) ∧
     o.target_dir = some s ∧ ¬s = "" ∧
     p = { normOpts o env with
           ignore_installed := true,
           target_dir := some (env.abspath s) }) := by
  rcases run_branches cmd o args env with h | h | ⟨q, hr, hcase, hq⟩ | ⟨q, s, hr, hts, hs0, hq⟩
  · rw [h] at hp; exact absurd hp (by simp)
  · rw [h] at hp; exact absurd hp (by simp)
  · subst hq
    rw [hr, runRest_plan] at hp
    have hpq : normOpts o env = p := by injection hp
    subst hpq
    exact Or.inl ⟨hr, hcase, rfl⟩
  · subst hq
    rw [hr, runRest_plan] at hp
    have hpq : { normOpts o env with
                 ignore_installed := true,
                 target_dir := some (env.abspath s) } = p := by injection hp
    subst hpq
    exact Or.inr ⟨s, hr, hts, hs0, rfl⟩

/-! ### Concrete baseline inputs used by the witnesses -/

/-- A baseline environment: no virtualenv isolation, identity `abspath`,
all collaborator phases succeed. -/
def env0 : Env :=
  { virtualenv_no_global := false, abspath := fun s => s,
    mkdtemp_dir := "/tmp/T", path_exists := fun _ => false,
    path_isdir := fun _ => false, version_lt_26 := false,
    setuptools_has_distribute := true, parse_reqs := fun _ => [],
    prepare_files_error := none, locate_files_error := none,
    install_error := none, successfully_installed := ["a"],
    successfully_downloaded := ["a"], home_lib := fun s => s ++ "/lib",
    listdir := fun _ => ["x"] }

/-- A baseline options object: every flag off. -/
def opts0 : Options :=
  { download_dir := none, download_cache := none, build_dir := "/b",
    src_dir := "/s", target_dir := none, upgrade := false,
    force_reinstall := false, ignore_installed := false,
    ignore_dependencies := false, no_install := false, no_download := false,
    install_options := none, global_options := none, use_user_site := false,
    as_egg := false, root_path := none, index_url := "https://idx",
    extra_index_urls := [], «no_index» := false, find_links := [],
    editables := [], requirements := [], default_vcs := none }

/-- The `install` command object. -/
def cmd0 : Cmd := { name := "install", bundle := false, bundle_filename := "b.zip" }

/-- Options with a download directory given. -/
def opts_dl : Options := { opts0 with download_dir := some "/dl" }

/-- The plan produced from `opts_dl` in `env0`. -/
def plan_dl : Options := { opts_dl with no_install := true, ignore_installed := true }

/-- C1: whenever a download directory is given, the resulting plan has
`no_install = true` and `ignore_installed = true` (lines 197-199 force both
before any requirement is collected). -/
theorem claim1_download_forces_flags (cmd : Cmd) (o : Options) (args : List String)
    (env : Env) (p : Options)
    (hd : strTruthy o.download_dir = true)
    (hp : (run cmd o args env).plan = some p) :
    p.no_install = true ∧ p.ignore_installed = true := by
  rcases run_plan_inv cmd o args env p hp with ⟨_, _, rfl⟩ | ⟨s, _, _, _, rfl⟩
  · rw [normOpts_no_install, normOpts_ignore_installed]
    simp [hd]
  · refine ⟨?_, rfl⟩
    show (normOpts o env).no_install = true
    rw [normOpts_no_install]
    simp [hd]

/-- C1 witness at a concrete input. -/
theorem claim1_witness :
    plan_dl.no_install = true ∧ plan_dl.ignore_installed = true :=
  claim1_download_forces_flags cmd0 opts_dl [] env0 plan_dl (by decide) (by decide)

/-- Lines 258-263: a nonempty collection with `use_user_site`, an editable
requirement, and setuptools without distribute raises before acquisition. -/
theorem runRest_editableErr (cmd : Cmd) (o : Options) (args : List String) (env : Env)
    (io : List String) (t0 : List Event) (tt : Option String)
    (hne : (collectedReqs o args env).isEmpty = false)
    (hv : (o.use_user_site && env.version_lt_26) = false)
    (he : ((o.use_user_site && (collectedReqs o args env).any fun r => r.editable) &&
      !env.setuptools_has_distribute) = true) :
    runRest cmd o args env io t0 tt =
      ⟨t0 ++ idxNotice o ++ (collectedReqs o args env).map Event.addRequirement,
        some (PipError.installationError userEditableMsg), some o, some io, none⟩ := by
  unfold runRest
  simp [hne, hv, he]

/-- Every trace produced by the post-normalization stage extends the trace
accumulated by normalization. -/
theorem runRest_trace_prefix (cmd : Cmd) (o : Options) (args : List String) (env : Env)
    (io : List String) (t0 : List Event) (tt : Option String) :
    ∃ u, (runRest cmd o args env io t0 tt).trace = t0 ++ u := by
  cases hne : (collectedReqs o args env).isEmpty with
  | true =>
    have h : collectedReqs o args env = [] := by
      simpa using hne
    rw [runRest_emptyEq cmd o args env io t0 tt h]
    simp only [List.append_assoc]
    exact ⟨_, rfl⟩
  | false =>
    by_cases hv : (o.use_user_site && env.version_lt_26) = true
    · rw [runRest_versionErr cmd o args env io t0 tt hne hv]
      simp only [List.append_assoc]
      exact ⟨_, rfl⟩
    · have hv' : (o.use_user_site && env.version_lt_26) = false := by simpa using hv
      by_cases he : ((o.use_user_site && (collectedReqs o args env).any fun r => r.editable) &&
        !env.setuptools_has_distribute) = true
      · rw [runRest_editableErr cmd o args env io t0 tt hne hv' he]
        simp only [List.append_assoc]
        exact ⟨_, rfl⟩
      · have he' : ((o.use_user_site && (collectedReqs o args env).any fun r => r.editable) &&
          !env.setuptools_has_distribute) = false := by simpa using he
        cases hnd : o.no_download with
        | false =>
          cases hpe : env.prepare_files_error with
          | none =>
            rw [runRest_prepOk cmd o args env io t0 tt hne hv' he' hnd hpe]
            exact runPhases_trace_pre cmd o env io (o.global_options.getD []) _ t0
              (builtReqSet o args env) tt
              ⟨idxNotice o ++ ((collectedReqs o args env).map Event.addRequirement ++
                [Event.prepareFiles cmd.bundle cmd.bundle]), by simp⟩
          | some m =>
            rw [runRest_prepErr cmd o args env io t0 tt m hne hv' he' hnd hpe]
            simp only [List.append_assoc]
            exact ⟨_, rfl⟩
        | true =>
          cases hle : env.locate_files_error with
          | none =>
            rw [runRest_locOk cmd o args env io t0 tt hne hv' he' hnd hle]
            exact runPhases_trace_pre cmd o env io (o.global_options.getD []) _ t0
              (builtReqSet o args env) tt
              ⟨idxNotice o ++ ((collectedReqs o args env).map Event.addRequirement ++
                [Event.locateFiles]), by simp⟩
          | some m =>
            rw [runRest_locErr cmd o args env io t0 tt m hne hv' he' hnd hle]
            simp only [List.append_assoc]
            exact ⟨_, rfl⟩

/-- C8: `use_user_site` in a virtualenv isolated from the global
site-packages fails immediately (lines 203-205): no effect at all is
performed, in particular no requirement is collected and no acquisition
begins, and the configuration error is the result. -/
theorem claim8_user_site_isolated (cmd : Cmd) (o : Options) (args : List String)
    (env : Env)
    (hu : o.use_user_site = true) (hg : env.virtualenv_no_global = true) :
    run cmd o args env =
      ⟨[], some (PipError.installationError userSiteVirtualenvMsg),
        none, none, none⟩ := by
  unfold run
  dsimp only
  rw [normOpts_use_user_site]
  simp [hu, hg]

/-- Options requesting a user-site install. -/
def opts_user : Options := { opts0 with use_user_site := true }

/-- An environment reporting a virtualenv without global site-packages. -/
def env_iso : Env := { env0 with virtualenv_no_global := true }

/-- C8 witness at a concrete input. -/
theorem claim8_witness :
    run cmd0 opts_user ["a"] env_iso =
      ⟨[], some (PipError.installationError userSiteVirtualenvMsg),
        none, none, none⟩ :=
  claim8_user_site_isolated cmd0 opts_user ["a"] env_iso (by decide) (by decide)

/-- C9: a given (nonempty) target directory forces `ignore_installed = true`
in the plan, creates the temporary redirect directory as the very first
effect (hence before any acquisition), and appends the home-redirect
directive pointing at it to the install options (lines 207-213). -/
theorem claim9_target_redirect (cmd : Cmd) (o : Options) (args : List String)
    (env : Env) (p : Options) (s : String)
    (ht : o.target_dir = some s) (hs : ¬s = "")
    (hp : (run cmd o args env).plan = some p) :
    p.ignore_installed = true ∧
    (∃ u, (run cmd o args env).trace = Event.mkdtemp env.mkdtemp_dir :: u) ∧
    (∀ l, (run cmd o args env).installOpts = some l →
      ("--home=" ++ env.mkdtemp_dir) ∈ l) := by
  rcases run_plan_inv cmd o args env p hp with ⟨_, hcase, _⟩ | ⟨s', hr, hts, _, hpe⟩
  · rcases hcase with h | h <;> rw [ht] at h <;> simp_all
  · refine ⟨by rw [hpe], ?_, ?_⟩
    · rw [hr]
      obtain ⟨u, hu⟩ := runRest_trace_prefix cmd p args env
        (o.install_options.getD [] ++ (if o.use_user_site then ["--user"] else []) ++
          ["--home=" ++ env.mkdtemp_dir])
        [Event.mkdtemp env.mkdtemp_dir] (some env.mkdtemp_dir)
      exact ⟨u, by simpa using hu⟩
    · intro l hl
      rw [hr, runRest_installOpts] at hl
      have : o.install_options.getD [] ++ (if o.use_user_site then ["--user"] else []) ++
          ["--home=" ++ env.mkdtemp_dir] = l := by injection hl
      rw [← this]
      simp

/-- Options with a target directory given. -/
def opts_tgt : Options := { opts0 with target_dir := some "/tgt" }

/-- The plan produced from `opts_tgt` in `env0`. -/
def plan_tgt : Options := { opts_tgt with ignore_installed := true }

/-- C9 witness at a concrete input. -/
theorem claim9_witness :
    plan_tgt.ignore_installed = true ∧
    (∃ u, (run cmd0 opts_tgt ["a"] env0).trace = Event.mkdtemp env0.mkdtemp_dir :: u) ∧
    (∀ l, (run cmd0 opts_tgt ["a"] env0).installOpts = some l →
      ("--home=" ++ env0.mkdtemp_dir) ∈ l) :=
  claim9_target_redirect cmd0 opts_tgt ["a"] env0 plan_tgt "/tgt"
    (by decide) (by decide) (by decide)

/-- The no-index notice is either empty or a single `notify` event. -/
theorem idxNotice_eq (o : Options) :
    idxNotice o = [] ∨ ∃ m, idxNotice o = [Event.notify m] := by
  unfold idxNotice
  split
  · exact Or.inr ⟨_, rfl⟩
  · exact Or.inl rfl

/-- C3: with an empty requirement collection the run terminates
successfully, emits exactly one warning, and performs no acquisition,
install, or cleanup call (lines 242-252). -/
theorem claim3_empty_soft_exit (cmd : Cmd) (o : Options) (args : List String)
    (env : Env) (p : Options)
    (hp : (run cmd o args env).plan = some p)
    (hempty : collectedReqs p args env = []) :
    (run cmd o args env).err = none ∧
    (run cmd o args env).ret = none ∧
    ((run cmd o args env).trace.filter (fun e => isWarn e)).length = 1 ∧
    (∀ b1 b2, Event.prepareFiles b1 b2 ∉ (run cmd o args env).trace) ∧
    Event.locateFiles ∉ (run cmd o args env).trace ∧
    (∀ a b c, Event.install a b c ∉ (run cmd o args env).trace) ∧
    (∀ b, Event.cleanupFiles b ∉ (run cmd o args env).trace) := by
  rcases run_plan_inv cmd o args env p hp with ⟨hr, _, _⟩ | ⟨s', hr, _, _, _⟩ <;>
    rw [hr, runRest_emptyEq cmd p args env _ _ _ hempty] <;>
    rcases idxNotice_eq p with hin | ⟨m, hin⟩ <;>
    simp [hin, isWarn]

/-- C3 witness at a concrete input. -/
theorem claim3_witness :
    (run cmd0 opts0 [] env0).err = none ∧
    (run cmd0 opts0 [] env0).ret = none ∧
    ((run cmd0 opts0 [] env0).trace.filter (fun e => isWarn e)).length = 1 ∧
    (∀ b1 b2, Event.prepareFiles b1 b2 ∉ (run cmd0 opts0 [] env0).trace) ∧
    Event.locateFiles ∉ (run cmd0 opts0 [] env0).trace ∧
    (∀ a b c, Event.install a b c ∉ (run cmd0 opts0 [] env0).trace) ∧
    (∀ b, Event.cleanupFiles b ∉ (run cmd0 opts0 [] env0).trace) :=
  claim3_empty_soft_exit cmd0 opts0 [] env0 opts0 (by decide) (by decide)

theorem isEmpty_false_of_ne {α : Type} {l : List α} (h : l ≠ []) :
    l.isEmpty = false := by
  cases l with
  | nil => exact absurd rfl h
  | cons a t => rfl

/-- C10: with `use_user_site` on an interpreter below 2.6, a nonempty
collection leads to the version-gate `InstallationError` (line 256) after
collection but before any acquisition; an empty collection soft-exits
first (line 252) and the error is never raised. -/
theorem claim10_user_version_gate (cmd : Cmd) (o : Options) (args : List String)
    (env : Env) (p : Options)
    (hu : o.use_user_site = true) (hv : env.version_lt_26 = true)
    (hp : (run cmd o args env).plan = some p) :
    (collectedReqs p args env ≠ [] →
      (run cmd o args env).err = some (PipError.installationError userVersionMsg) ∧
      (∀ b1 b2, Event.prepareFiles b1 b2 ∉ (run cmd o args env).trace) ∧
      Event.locateFiles ∉ (run cmd o args env).trace) ∧
    (collectedReqs p args env = [] → (run cmd o args env).err = none) := by
  rcases run_plan_inv cmd o args env p hp with ⟨hr, _, hpe⟩ | ⟨s', hr, _, _, hpe⟩ <;>
    subst hpe <;>
    constructor
  · intro hne
    have hv' : ((normOpts o env).use_user_site && env.version_lt_26) = true := by
      rw [normOpts_use_user_site, hu, hv]; rfl
    rw [hr, runRest_versionErr cmd (normOpts o env) args env _ _ _
      (isEmpty_false_of_ne hne) hv']
    refine ⟨rfl, ?_, ?_⟩ <;>
      rcases idxNotice_eq (normOpts o env) with hin | ⟨m, hin⟩ <;>
      simp [hin, List.mem_map]
  · intro hempty
    rw [hr, runRest_emptyEq cmd (normOpts o env) args env _ _ _ hempty]
  · intro hne
    have hv' : (({ normOpts o env with
        ignore_installed := true,
        target_dir := some (env.abspath s') }).use_user_site &&
          env.version_lt_26) = true := by
      show ((normOpts o env).use_user_site && env.version_lt_26) = true
      rw [normOpts_use_user_site, hu, hv]; rfl
    rw [hr, runRest_versionErr cmd _ args env _ _ _ (isEmpty_false_of_ne hne) hv']
    refine ⟨rfl, ?_, ?_⟩ <;>
      rcases idxNotice_eq { normOpts o env with
        ignore_installed := true,
        target_dir := some (env.abspath s') } with hin | ⟨m, hin⟩ <;>
      simp [hin, List.mem_map]
  · intro hempty
    rw [hr, runRest_emptyEq cmd _ args env _ _ _ hempty]

/-- Environment reporting an interpreter older than 2.6. -/
def env_old : Env := { env0 with version_lt_26 := true }

/-- C10 witness at a concrete input. -/
theorem claim10_witness :
    (collectedReqs opts_user ["a"] env_old ≠ [] →
      (run cmd0 opts_user ["a"] env_old).err =
        some (PipError.installationError userVersionMsg) ∧
      (∀ b1 b2, Event.prepareFiles b1 b2 ∉ (run cmd0 opts_user ["a"] env_old).trace) ∧
      Event.locateFiles ∉ (run cmd0 opts_user ["a"] env_old).trace) ∧
    (collectedReqs opts_user ["a"] env_old = [] →
      (run cmd0 opts_user ["a"] env_old).err = none) :=
  claim10_user_version_gate cmd0 opts_user ["a"] env_old opts_user
    (by decide) (by decide) (by decide)

/-- Which acquisition phase runs, as seen in the trace, once the
precondition checks pass (lines 265-268). -/
theorem runRest_acq_mem (cmd : Cmd) (o : Options) (args : List String) (env : Env)
    (io : List String) (t0 : List Event) (tt : Option String)
    (hne : (collectedReqs o args env).isEmpty = false)
    (hv : (o.use_user_site && env.version_lt_26) = false)
    (he : ((o.use_user_site && (collectedReqs o args env).any fun r => r.editable) &&
      !env.setuptools_has_distribute) = false)
    (hpre : ∀ b1 b2, Event.prepareFiles b1 b2 ∉ t0)
    (hloc : Event.locateFiles ∉ t0) :
    (Event.prepareFiles cmd.bundle cmd.bundle ∈ (runRest cmd o args env io t0 tt).trace ↔
      o.no_download = false) ∧
    (Event.locateFiles ∈ (runRest cmd o args env io t0 tt).trace ↔
      o.no_download = true) := by
  cases hnd : o.no_download with
  | false =>
    cases hpe : env.prepare_files_error with
    | none =>
      rw [runRest_prepOk cmd o args env io t0 tt hne hv he hnd hpe]
      rw [runPhases_mem cmd o env io _ _ _ tt (by rfl),
          runPhases_mem cmd o env io _ _ _ tt (by rfl)]
      rcases idxNotice_eq o with hin | ⟨m, hin⟩ <;>
        simp [hin, hpre, hloc, List.mem_map]
    | some m =>
      rw [runRest_prepErr cmd o args env io t0 tt m hne hv he hnd hpe]
      rcases idxNotice_eq o with hin | ⟨m2, hin⟩ <;>
        simp [hin, hpre, hloc, List.mem_map]
  | true =>
    cases hle : env.locate_files_error with
    | none =>
      rw [runRest_locOk cmd o args env io t0 tt hne hv he hnd hle]
      rw [runPhases_mem cmd o env io _ _ _ tt (by rfl),
          runPhases_mem cmd o env io _ _ _ tt (by rfl)]
      rcases idxNotice_eq o with hin | ⟨m, hin⟩ <;>
        simp [hin, hpre, hloc, List.mem_map]
    | some m =>
      rw [runRest_locErr cmd o args env io t0 tt m hne hv he hnd hle]
      rcases idxNotice_eq o with hin | ⟨m2, hin⟩ <;>
        simp [hin, hpre, hloc, List.mem_map]

/-- C6: once the collection is nonempty and the precondition checks pass,
exactly one acquisition phase runs: `prepare_files` when `no_download` is
false, `locate_files` when it is true (lines 265-268). -/
theorem claim6_acquisition_choice (cmd : Cmd) (o : Options) (args : List String)
    (env : Env) (p : Options)
    (hp : (run cmd o args env).plan = some p)
    (hne : collectedReqs p args env ≠ [])
    (hv : ¬(p.use_user_site = true ∧ env.version_lt_26 = true))
    (he : ¬(p.use_user_site = true ∧
      (collectedReqs p args env).any (fun r => r.editable) = true ∧
      env.setuptools_has_distribute = false)) :
    (Event.prepareFiles cmd.bundle cmd.bundle ∈ (run cmd o args env).trace ↔
      p.no_download = false) ∧
    (Event.locateFiles ∈ (run cmd o args env).trace ↔ p.no_download = true) := by
  have hv' : (p.use_user_site && env.version_lt_26) = false := by
    cases h1 : p.use_user_site <;> cases h2 : env.version_lt_26 <;> simp_all
  have he' : ((p.use_user_site && (collectedReqs p args env).any fun r => r.editable) &&
      !env.setuptools_has_distribute) = false := by
    cases h1 : p.use_user_site <;>
      cases h2 : (collectedReqs p args env).any fun r => r.editable <;>
      cases h3 : env.setuptools_has_distribute <;> simp_all
  rcases run_plan_inv cmd o args env p hp with ⟨hr, _, _⟩ | ⟨s', hr, _, _, _⟩ <;>
    rw [hr] <;>
    exact runRest_acq_mem cmd p args env _ _ _
      (isEmpty_false_of_ne hne) hv' he' (by simp) (by simp)

/-- C6 witness at a concrete input. -/
theorem claim6_witness :
    (Event.prepareFiles cmd0.bundle cmd0.bundle ∈ (run cmd0 opts0 ["a"] env0).trace ↔
      opts0.no_download = false) ∧
    (Event.locateFiles ∈ (run cmd0 opts0 ["a"] env0).trace ↔
      opts0.no_download = true) :=
  claim6_acquisition_choice cmd0 opts0 ["a"] env0 opts0
    (by decide) (by decide) (by decide) (by decide)

/-- Lines 270-283: the outcome mode is selected by priority
bundle > no-install report > install, mutually exclusively, as observed in
the trace. -/
theorem runPhases_modes (cmd : Cmd) (o : Options) (env : Env) (io gopts : List String)
    (t : List Event) (rs : RequirementSet) (tt : Option String)
    (hie : env.install_error = none)
    (hti : ∀ a b c, Event.install a b c ∉ t)
    (htc : ∀ f, Event.createBundle f ∉ t) :
    (cmd.bundle = true →
      Event.createBundle cmd.bundle_filename ∈ (runPhases cmd o env io gopts t rs tt).trace ∧
      (∀ a b c, Event.install a b c ∉ (runPhases cmd o env io gopts t rs tt).trace)) ∧
    (cmd.bundle = false → o.no_install = true →
      (∀ a b c, Event.install a b c ∉ (runPhases cmd o env io gopts t rs tt).trace) ∧
      (∀ f, Event.createBundle f ∉ (runPhases cmd o env io gopts t rs tt).trace) ∧
      (String.intercalate " " env.successfully_downloaded ≠ "" →
        Event.notify ("Successfully downloaded " ++
          String.intercalate " " env.successfully_downloaded) ∈
          (runPhases cmd o env io gopts t rs tt).trace)) ∧
    (cmd.bundle = false → o.no_install = false →
      Event.install io gopts o.root_path ∈ (runPhases cmd o env io gopts t rs tt).trace ∧
      (∀ f, Event.createBundle f ∉ (runPhases cmd o env io gopts t rs tt).trace) ∧
      (String.intercalate " " env.successfully_installed ≠ "" →
        Event.notify ("Successfully installed " ++
          String.intercalate " " env.successfully_installed) ∈
          (runPhases cmd o env io gopts t rs tt).trace)) := by
  by_cases hb : cmd.bundle = true
  · rw [runPhases_bundle cmd o env io gopts t rs tt hb]
    refine ⟨fun _ => ⟨?_, ?_⟩,
      fun hb0 _ => absurd hb (by simp [hb0]),
      fun hb0 _ => absurd hb (by simp [hb0])⟩
    · rw [finishRun_mem cmd o env io _ rs tt (by rfl)]
      simp
    · intro a b c
      rw [finishRun_mem cmd o env io _ rs tt (by rfl)]
      simp [List.mem_append, hti a b c]
  · have hb' : cmd.bundle = false := by simpa using hb
    by_cases hni : o.no_install = true
    · rw [runPhases_noinstall cmd o env io gopts t rs tt hb' hni]
      refine ⟨fun hb0 => absurd hb0 (by simp [hb']),
        fun _ _ => ⟨?_, ?_, ?_⟩,
        fun _ hni0 => absurd hni (by simp [hni0])⟩
      · intro a b c
        rw [finishRun_mem cmd o env io _ rs tt (by rfl)]
        simp only [List.mem_append]
        rintro (h | h)
        · exact hti a b c h
        · revert h; split <;> simp
      · intro f
        rw [finishRun_mem cmd o env io _ rs tt (by rfl)]
        simp only [List.mem_append]
        rintro (h | h)
        · exact htc f h
        · revert h; split <;> simp
      · intro hdl
        rw [finishRun_mem cmd o env io _ rs tt (by rfl)]
        simp [hdl]
    · have hni' : o.no_install = false := by simpa using hni
      rw [runPhases_install cmd o env io gopts t rs tt hb' hni' hie]
      refine ⟨fun hb0 => absurd hb0 (by simp [hb']),
        fun _ hni0 => absurd hni0 (by simp [hni']),
        fun _ _ => ⟨?_, ?_, ?_⟩⟩
      · rw [finishRun_mem cmd o env io _ rs tt (by rfl)]
        simp
      · intro f
        rw [finishRun_mem cmd o env io _ rs tt (by rfl)]
        simp only [List.mem_append]
        rintro ((h | h) | h)
        · exact htc f h
        · simp at h
        · revert h; split <;> simp
      · intro hin
        rw [finishRun_mem cmd o env io _ rs tt (by rfl)]
        simp [hin]

/-- The outcome-mode selection, lifted over the acquisition step. -/
theorem runRest_modes (cmd : Cmd) (o : Options) (args : List String) (env : Env)
    (io : List String) (t0 : List Event) (tt : Option String)
    (hne : (collectedReqs o args env).isEmpty = false)
    (hv : (o.use_user_site && env.version_lt_26) = false)
    (he : ((o.use_user_site && (collectedReqs o args env).any fun r => r.editable) &&
      !env.setuptools_has_distribute) = false)
    (hpe : env.prepare_files_error = none) (hle : env.locate_files_error = none)
    (hie : env.install_error = none)
    (hti : ∀ a b c, Event.install a b c ∉ t0)
    (htc : ∀ f, Event.createBundle f ∉ t0) :
    (cmd.bundle = true →
      Event.createBundle cmd.bundle_filename ∈ (runRest cmd o args env io t0 tt).trace ∧
      (∀ a b c, Event.install a b c ∉ (runRest cmd o args env io t0 tt).trace)) ∧
    (cmd.bundle = false → o.no_install = true →
      (∀ a b c, Event.install a b c ∉ (runRest cmd o args env io t0 tt).trace) ∧
      (∀ f, Event.createBundle f ∉ (runRest cmd o args env io t0 tt).trace) ∧
      (String.intercalate " " env.successfully_downloaded ≠ "" →
        Event.notify ("Successfully downloaded " ++
          String.intercalate " " env.successfully_downloaded) ∈
          (runRest cmd o args env io t0 tt).trace)) ∧
    (cmd.bundle = false → o.no_install = false →
      Event.install io (o.global_options.getD []) o.root_path ∈
        (runRest cmd o args env io t0 tt).trace ∧
      (∀ f, Event.createBundle f ∉ (runRest cmd o args env io t0 tt).trace) ∧
      (String.intercalate " " env.successfully_installed ≠ "" →
        Event.notify ("Successfully installed " ++
          String.intercalate " " env.successfully_installed) ∈
          (runRest cmd o args env io t0 tt).trace)) := by
  cases hnd : o.no_download with
  | false =>
    rw [runRest_prepOk cmd o args env io t0 tt hne hv he hnd hpe]
    refine runPhases_modes cmd o env io _ _ _ tt hie ?_ ?_
    · intro a b c
      rcases idxNotice_eq o with hin | ⟨m, hin⟩ <;>
        simp [hin, List.mem_append, List.mem_map, hti a b c]
    · intro f
      rcases idxNotice_eq o with hin | ⟨m, hin⟩ <;>
        simp [hin, List.mem_append, List.mem_map, htc f]
  | true =>
    rw [runRest_locOk cmd o args env io t0 tt hne hv he hnd hle]
    refine runPhases_modes cmd o env io _ _ _ tt hie ?_ ?_
    · intro a b c
      rcases idxNotice_eq o with hin | ⟨m, hin⟩ <;>
        simp [hin, List.mem_append, List.mem_map, hti a b c]
    · intro f
      rcases idxNotice_eq o with hin | ⟨m, hin⟩ <;>
        simp [hin, List.mem_append, List.mem_map, htc f]

/-- C5: after preparation, exactly one outcome mode runs, selected by
priority bundle > download-only report > install (lines 270-283). In
bundle mode `create_bundle` runs and `install` does not; in download-only
mode neither `install` nor `create_bundle` runs and the downloaded names
are reported; otherwise `install` runs with the final install options,
global options and root path, and the installed names are reported. -/
theorem claim5_outcome_modes (cmd : Cmd) (o : Options) (args : List String)
    (env : Env) (p : Options)
    (hp : (run cmd o args env).plan = some p)
    (hne : collectedReqs p args env ≠ [])
    (hv : ¬(p.use_user_site = true ∧ env.version_lt_26 = true))
    (he : ¬(p.use_user_site = true ∧
      (collectedReqs p args env).any (fun r => r.editable) = true ∧
      env.setuptools_has_distribute = false))
    (hpe : env.prepare_files_error = none) (hle : env.locate_files_error = none)
    (hie : env.install_error = none) :
    (cmd.bundle = true →
      Event.createBundle cmd.bundle_filename ∈ (run cmd o args env).trace ∧
      (∀ a b c, Event.install a b c ∉ (run cmd o args env).trace)) ∧
    (cmd.bundle = false → p.no_install = true →
      (∀ a b c, Event.install a b c ∉ (run cmd o args env).trace) ∧
      (∀ f, Event.createBundle f ∉ (run cmd o args env).trace) ∧
      (String.intercalate " " env.successfully_downloaded ≠ "" →
        Event.notify ("Successfully downloaded " ++
          String.intercalate " " env.successfully_downloaded) ∈
          (run cmd o args env).trace)) ∧
    (cmd.bundle = false → p.no_install = false →
      (∀ l, (run cmd o args env).installOpts = some l →
        Event.install l (p.global_options.getD []) p.root_path ∈
          (run cmd o args env).trace) ∧
      (∀ f, Event.createBundle f ∉ (run cmd o args env).trace) ∧
      (String.intercalate " " env.successfully_installed ≠ "" →
        Event.notify ("Successfully installed " ++
          String.intercalate " " env.successfully_installed) ∈
          (run cmd o args env).trace)) := by
  have hv' : (p.use_user_site && env.version_lt_26) = false := by
    cases h1 : p.use_user_site <;> cases h2 : env.version_lt_26 <;> simp_all
  have he' : ((p.use_user_site && (collectedReqs p args env).any fun r => r.editable) &&
      !env.setuptools_has_distribute) = false := by
    cases h1 : p.use_user_site <;>
      cases h2 : (collectedReqs p args env).any fun r => r.editable <;>
      cases h3 : env.setuptools_has_distribute <;> simp_all
  rcases run_plan_inv cmd o args env p hp with ⟨hr, _, _⟩ | ⟨s', hr, _, _, _⟩
  · rw [hr]
    obtain ⟨m1, m2, m3⟩ := runRest_modes cmd p args env
      (o.install_options.getD [] ++ (if o.use_user_site then ["--user"] else []))
      [] none (isEmpty_false_of_ne hne) hv' he' hpe hle hie (by simp) (by simp)
    refine ⟨m1, m2, fun hb hni => ?_⟩
    obtain ⟨i1, i2, i3⟩ := m3 hb hni
    refine ⟨?_, i2, i3⟩
    intro l hl
    rw [runRest_installOpts] at hl
    rw [← Option.some.inj hl]
    exact i1
  · rw [hr]
    obtain ⟨m1, m2, m3⟩ := runRest_modes cmd p args env
      (o.install_options.getD [] ++ (if o.use_user_site then ["--user"] else []) ++
        ["--home=" ++ env.mkdtemp_dir])
      [Event.mkdtemp env.mkdtemp_dir] (some env.mkdtemp_dir)
      (isEmpty_false_of_ne hne) hv' he' hpe hle hie (by simp) (by simp)
    refine ⟨m1, m2, fun hb hni => ?_⟩
    obtain ⟨i1, i2, i3⟩ := m3 hb hni
    refine ⟨?_, i2, i3⟩
    intro l hl
    rw [runRest_installOpts] at hl
    rw [← Option.some.inj hl]
    exact i1

/-- C5 witness at a concrete input. -/
theorem claim5_witness :
    (cmd0.bundle = true →
      Event.createBundle cmd0.bundle_filename ∈ (run cmd0 opts0 ["a"] env0).trace ∧
      (∀ a b c, Event.install a b c ∉ (run cmd0 opts0 ["a"] env0).trace)) ∧
    (cmd0.bundle = false → opts0.no_install = true →
      (∀ a b c, Event.install a b c ∉ (run cmd0 opts0 ["a"] env0).trace) ∧
      (∀ f, Event.createBundle f ∉ (run cmd0 opts0 ["a"] env0).trace) ∧
      (String.intercalate " " env0.successfully_downloaded ≠ "" →
        Event.notify ("Successfully downloaded " ++
          String.intercalate " " env0.successfully_downloaded) ∈
          (run cmd0 opts0 ["a"] env0).trace)) ∧
    (cmd0.bundle = false → opts0.no_install = false →
      (∀ l, (run cmd0 opts0 ["a"] env0).installOpts = some l →
        Event.install l (opts0.global_options.getD []) opts0.root_path ∈
          (run cmd0 opts0 ["a"] env0).trace) ∧
      (∀ f, Event.createBundle f ∉ (run cmd0 opts0 ["a"] env0).trace) ∧
      (String.intercalate " " env0.successfully_installed ≠ "" →
        Event.notify ("Successfully installed " ++
          String.intercalate " " env0.successfully_installed) ∈
          (run cmd0 opts0 ["a"] env0).trace)) :=
  claim5_outcome_modes cmd0 opts0 ["a"] env0 opts0
    (by decide) (by decide) (by decide) (by decide) (by decide) (by decide) (by decide)

/-- The cleanup condition of line 285, lifted over the phase stage. -/
theorem runPhases_cleanup (cmd : Cmd) (o : Options) (env : Env) (io gopts : List String)
    (t : List Event) (rs rs' : RequirementSet) (tt : Option String)
    (hc : Event.cleanupFiles cmd.bundle ∉ t)
    (hret : (runPhases cmd o env io gopts t rs tt).ret = some rs') :
    (Event.cleanupFiles cmd.bundle ∈ (runPhases cmd o env io gopts t rs tt).trace ↔
      (o.no_install = false ∨ strTruthy o.download_dir = true)) := by
  by_cases hb : cmd.bundle = true
  · rw [runPhases_bundle cmd o env io gopts t rs tt hb]
    exact finishRun_cleanup cmd o env io _ rs tt (by simp [List.mem_append, hc])
  · have hb' : cmd.bundle = false := by simpa using hb
    by_cases hni : o.no_install = true
    · rw [runPhases_noinstall cmd o env io gopts t rs tt hb' hni]
      refine finishRun_cleanup cmd o env io _ rs tt ?_
      simp only [List.mem_append]
      rintro (h | h)
      · exact hc h
      · revert h; split <;> simp
    · have hni' : o.no_install = false := by simpa using hni
      cases hie : env.install_error with
      | some m =>
        rw [runPhases_installErr cmd o env io gopts t rs tt m hb' hni' hie] at hret
        exact absurd hret (by simp)
      | none =>
        rw [runPhases_install cmd o env io gopts t rs tt hb' hni' hie]
        refine finishRun_cleanup cmd o env io _ rs tt ?_
        simp only [List.mem_append]
        rintro ((h | h) | h)
        · exact hc h
        · simp at h
        · revert h; split <;> simp

/-- The cleanup condition of line 285, lifted over the whole
post-normalization stage: in a completed run, `cleanup_files` ran exactly
when installation was not suppressed or a download directory was given. -/
theorem runRest_cleanup (cmd : Cmd) (o : Options) (args : List String) (env : Env)
    (io : List String) (t0 : List Event) (tt : Option String) (rs' : RequirementSet)
    (hc : Event.cleanupFiles cmd.bundle ∉ t0)
    (hret : (runRest cmd o args env io t0 tt).ret = some rs') :
    (Event.cleanupFiles cmd.bundle ∈ (runRest cmd o args env io t0 tt).trace ↔
      (o.no_install = false ∨ strTruthy o.download_dir = true)) := by
  cases hne : (collectedReqs o args env).isEmpty with
  | true =>
    have h : collectedReqs o args env = [] := by simpa using hne
    rw [runRest_emptyEq cmd o args env io t0 tt h] at hret
    exact absurd hret (by simp)
  | false =>
    by_cases hv : (o.use_user_site && env.version_lt_26) = true
    · rw [runRest_versionErr cmd o args env io t0 tt hne hv] at hret
      exact absurd hret (by simp)
    · have hv' : (o.use_user_site && env.version_lt_26) = false := by simpa using hv
      by_cases he : ((o.use_user_site && (collectedReqs o args env).any fun r => r.editable) &&
        !env.setuptools_has_distribute) = true
      · rw [runRest_editableErr cmd o args env io t0 tt hne hv' he] at hret
        exact absurd hret (by simp)
      · have he' : ((o.use_user_site && (collectedReqs o args env).any fun r => r.editable) &&
          !env.setuptools_has_distribute) = false := by simpa using he
        cases hnd : o.no_download with
        | false =>
          cases hpe : env.prepare_files_error with
          | some m =>
            rw [runRest_prepErr cmd o args env io t0 tt m hne hv' he' hnd hpe] at hret
            exact absurd hret (by simp)
          | none =>
            rw [runRest_prepOk cmd o args env io t0 tt hne hv' he' hnd hpe] at hret ⊢
            refine runPhases_cleanup cmd o env io _ _ _ rs' tt ?_ hret
            rcases idxNotice_eq o with hin | ⟨m, hin⟩ <;>
              simp [hin, List.mem_append, List.mem_map, hc]
        | true =>
          cases hle : env.locate_files_error with
          | some m =>
            rw [runRest_locErr cmd o args env io t0 tt m hne hv' he' hnd hle] at hret
            exact absurd hret (by simp)
          | none =>
            rw [runRest_locOk cmd o args env io t0 tt hne hv' he' hnd hle] at hret ⊢
            refine runPhases_cleanup cmd o env io _ _ _ rs' tt ?_ hret
            rcases idxNotice_eq o with hin | ⟨m, hin⟩ <;>
              simp [hin, List.mem_append, List.mem_map, hc]

/-- C4: in a run that completes and returns its requirement set, the
build-artifact cleanup ran if and only if installation was not suppressed
or a download directory was requested; in particular `no_install` with no
download directory performs no cleanup (lines 284-286). -/
theorem claim4_cleanup_condition (cmd : Cmd) (o : Options) (args : List String)
    (env : Env) (p : Options) (rs : RequirementSet)
    (hp : (run cmd o args env).plan = some p)
    (hret : (run cmd o args env).ret = some rs) :
    (Event.cleanupFiles cmd.bundle ∈ (run cmd o args env).trace ↔
      (p.no_install = false ∨ strTruthy p.download_dir = true)) := by
  rcases run_plan_inv cmd o args env p hp with ⟨hr, _, _⟩ | ⟨s', hr, _, _, _⟩ <;>
    rw [hr] at hret ⊢ <;>
    exact runRest_cleanup cmd p args env _ _ _ rs (by simp) hret

/-- Options suppressing installation without a download directory. -/
def opts_ni : Options := { opts0 with no_install := true }

/-- C4 witness at a concrete input: a `no_install` run without a download
directory performs no cleanup. -/
theorem claim4_witness :
    (Event.cleanupFiles cmd0.bundle ∈ (run cmd0 opts_ni ["a"] env0).trace ↔
      (opts_ni.no_install = false ∨ strTruthy opts_ni.download_dir = true)) :=
  claim4_cleanup_condition cmd0 opts_ni ["a"] env0 opts_ni
    (builtReqSet opts_ni ["a"] env0) (by decide) (by decide)

/-- Lines 287-296: with a target directory staged, the run's trace ends
with the relocation: create the target directory when absent, move every
entry of the temporary home's library subpath, then delete the tree. -/
theorem finishRun_target_tail (cmd : Cmd) (o : Options) (env : Env) (io : List String)
    (t : List Event) (rs : RequirementSet) (tmp td : String)
    (htd : o.target_dir = some td) (h0 : ¬td = "") :
    ∃ t1, (finishRun cmd o env io t rs (some tmp)).trace =
      t1 ++ (if env.path_exists td then [] else [Event.makedirs td]) ++
        (env.listdir (env.home_lib tmp)).map
          (fun item => Event.move (pathJoin (env.home_lib tmp) item)
            (pathJoin td item)) ++
        [Event.rmtree tmp] := by
  unfold finishRun
  dsimp only
  rw [htd]
  refine ⟨t ++ (if (!o.no_install || strTruthy o.download_dir) = true then
    [Event.cleanupFiles cmd.bundle] else []), ?_⟩
  cases hex : env.path_exists td <;> simp [h0, hex]

/-- The relocation tail, lifted over the phase stage. -/
theorem runPhases_target_tail (cmd : Cmd) (o : Options) (env : Env) (io gopts : List String)
    (t : List Event) (rs rs' : RequirementSet) (tmp td : String)
    (htd : o.target_dir = some td) (h0 : ¬td = "")
    (hret : (runPhases cmd o env io gopts t rs (some tmp)).ret = some rs') :
    ∃ t1, (runPhases cmd o env io gopts t rs (some tmp)).trace =
      t1 ++ (if env.path_exists td then [] else [Event.makedirs td]) ++
        (env.listdir (env.home_lib tmp)).map
          (fun item => Event.move (pathJoin (env.home_lib tmp) item)
            (pathJoin td item)) ++
        [Event.rmtree tmp] := by
  by_cases hb : cmd.bundle = true
  · rw [runPhases_bundle cmd o env io gopts t rs (some tmp) hb]
    exact finishRun_target_tail cmd o env io _ rs tmp td htd h0
  · have hb' : cmd.bundle = false := by simpa using hb
    by_cases hni : o.no_install = true
    · rw [runPhases_noinstall cmd o env io gopts t rs (some tmp) hb' hni]
      exact finishRun_target_tail cmd o env io _ rs tmp td htd h0
    · have hni' : o.no_install = false := by simpa using hni
      cases hie : env.install_error with
      | some m =>
        rw [runPhases_installErr cmd o env io gopts t rs (some tmp) m hb' hni' hie] at hret
        exact absurd hret (by simp)
      | none =>
        rw [runPhases_install cmd o env io gopts t rs (some tmp) hb' hni' hie]
        exact finishRun_target_tail cmd o env io _ rs tmp td htd h0

/-- The relocation tail, lifted over the whole post-normalization stage. -/
theorem runRest_target_tail (cmd : Cmd) (o : Options) (args : List String) (env : Env)
    (io : List String) (t0 : List Event) (rs' : RequirementSet) (tmp td : String)
    (htd : o.target_dir = some td) (h0 : ¬td = "")
    (hret : (runRest cmd o args env io t0 (some tmp)).ret = some rs') :
    ∃ t1, (runRest cmd o args env io t0 (some tmp)).trace =
      t1 ++ (if env.path_exists td then [] else [Event.makedirs td]) ++
        (env.listdir (env.home_lib tmp)).map
          (fun item => Event.move (pathJoin (env.home_lib tmp) item)
            (pathJoin td item)) ++
        [Event.rmtree tmp] := by
  cases hne : (collectedReqs o args env).isEmpty with
  | true =>
    have h : collectedReqs o args env = [] := by simpa using hne
    rw [runRest_emptyEq cmd o args env io t0 (some tmp) h] at hret
    exact absurd hret (by simp)
  | false =>
    by_cases hv : (o.use_user_site && env.version_lt_26) = true
    · rw [runRest_versionErr cmd o args env io t0 (some tmp) hne hv] at hret
      exact absurd hret (by simp)
    · have hv' : (o.use_user_site && env.version_lt_26) = false := by simpa using hv
      by_cases he : ((o.use_user_site && (collectedReqs o args env).any fun r => r.editable) &&
        !env.setuptools_has_distribute) = true
      · rw [runRest_editableErr cmd o args env io t0 (some tmp) hne hv' he] at hret
        exact absurd hret (by simp)
      · have he' : ((o.use_user_site && (collectedReqs o args env).any fun r => r.editable) &&
          !env.setuptools_has_distribute) = false := by simpa using he
        cases hnd : o.no_download with
        | false =>
          cases hpe : env.prepare_files_error with
          | some m =>
            rw [runRest_prepErr cmd o args env io t0 (some tmp) m hne hv' he' hnd hpe] at hret
            exact absurd hret (by simp)
          | none =>
            rw [runRest_prepOk cmd o args env io t0 (some tmp) hne hv' he' hnd hpe] at hret ⊢
            exact runPhases_target_tail cmd o env io _ _ _ rs' tmp td htd h0 hret
        | true =>
          cases hle : env.locate_files_error with
          | some m =>
            rw [runRest_locErr cmd o args env io t0 (some tmp) m hne hv' he' hnd hle] at hret
            exact absurd hret (by simp)
          | none =>
            rw [runRest_locOk cmd o args env io t0 (some tmp) hne hv' he' hnd hle] at hret ⊢
            exact runPhases_target_tail cmd o env io _ _ _ rs' tmp td htd h0 hret

/-- C7: a completed run with a (nonempty) target directory ends by
creating the target directory when it did not exist, moving every
top-level entry of the temporary home's library subpath into the target
directory under the same name, and deleting the temporary tree
(lines 287-296). -/
theorem claim7_relocation (cmd : Cmd) (o : Options) (args : List String)
    (env : Env) (rs : RequirementSet) (s : String)
    (ht : o.target_dir = some s) (hs : ¬s = "") (habs : ¬env.abspath s = "")
    (hret : (run cmd o args env).ret = some rs) :
    ∃ t1, (run cmd o args env).trace =
      t1 ++ (if env.path_exists (env.abspath s) then []
        else [Event.makedirs (env.abspath s)]) ++
        (env.listdir (env.home_lib env.mkdtemp_dir)).map
          (fun item => Event.move (pathJoin (env.home_lib env.mkdtemp_dir) item)
            (pathJoin (env.abspath s) item)) ++
        [Event.rmtree env.mkdtemp_dir] := by
  rcases run_branches cmd o args env with h | h | ⟨q, hr, hcase, _⟩ | ⟨q, s', hr, hts, _, hq⟩
  · rw [h] at hret; exact absurd hret (by simp)
  · rw [h] at hret; exact absurd hret (by simp)
  · rcases hcase with hc | hc <;> rw [ht] at hc <;> simp_all
  · rw [hts] at ht
    have hss : s' = s := by injection ht
    subst hss
    rw [hr] at hret ⊢
    refine runRest_target_tail cmd q args env _ _ rs env.mkdtemp_dir
      (env.abspath s') ?_ habs hret
    rw [hq]

/-- C7 witness at a concrete input. -/
theorem claim7_witness :
    ∃ t1, (run cmd0 opts_tgt ["a"] env0).trace =
      t1 ++ (if env0.path_exists (env0.abspath "/tgt") then []
        else [Event.makedirs (env0.abspath "/tgt")]) ++
        (env0.listdir (env0.home_lib env0.mkdtemp_dir)).map
          (fun item => Event.move (pathJoin (env0.home_lib env0.mkdtemp_dir) item)
            (pathJoin (env0.abspath "/tgt") item)) ++
        [Event.rmtree env0.mkdtemp_dir] :=
  claim7_relocation cmd0 opts_tgt ["a"] env0
    (builtReqSet plan_tgt ["a"] env0) "/tgt"
    (by decide) (by decide) (by decide) (by decide)

/-- When a collaborator call (`prepare_files`, `locate_files`, `install`)
raises, the post-normalization stage propagates the exception immediately:
the events after normalization contain no `cleanup_files` call and no
`rmtree` of any directory. -/
theorem runRest_err_shape (cmd : Cmd) (o : Options) (args : List String) (env : Env)
    (io : List String) (t0 : List Event) (tt : Option String) (m : String)
    (h : (runRest cmd o args env io t0 tt).err = some (PipError.collaboratorError m)) :
    ∃ u, (runRest cmd o args env io t0 tt).trace = t0 ++ u ∧
      (∀ b, Event.cleanupFiles b ∉ u) ∧ (∀ d, Event.rmtree d ∉ u) := by
  cases hne : (collectedReqs o args env).isEmpty with
  | true =>
    have hh : collectedReqs o args env = [] := by simpa using hne
    rw [runRest_emptyEq cmd o args env io t0 tt hh] at h
    exact absurd h (by simp)
  | false =>
    by_cases hv : (o.use_user_site && env.version_lt_26) = true
    · rw [runRest_versionErr cmd o args env io t0 tt hne hv] at h
      exact absurd h (by simp [userVersionMsg])
    · have hv' : (o.use_user_site && env.version_lt_26) = false := by simpa using hv
      by_cases he : ((o.use_user_site && (collectedReqs o args env).any fun r => r.editable) &&
        !env.setuptools_has_distribute) = true
      · rw [runRest_editableErr cmd o args env io t0 tt hne hv' he] at h
        exact absurd h (by simp [userEditableMsg])
      · have he' : ((o.use_user_site && (collectedReqs o args env).any fun r => r.editable) &&
          !env.setuptools_has_distribute) = false := by simpa using he
        cases hnd : o.no_download with
        | false =>
          cases hpe : env.prepare_files_error with
          | some m2 =>
            rw [runRest_prepErr cmd o args env io t0 tt m2 hne hv' he' hnd hpe]
            simp only [List.append_assoc]
            refine ⟨_, rfl, ?_, ?_⟩ <;> intro b <;>
              rcases idxNotice_eq o with hin | ⟨m3, hin⟩ <;>
              simp [hin, List.mem_append, List.mem_map]
          | none =>
            rw [runRest_prepOk cmd o args env io t0 tt hne hv' he' hnd hpe] at h ⊢
            obtain ⟨m', _, htr⟩ := runPhases_err cmd o env io _ _ _ tt _ h
            rw [htr]
            simp only [List.append_assoc]
            refine ⟨_, rfl, ?_, ?_⟩ <;> intro b <;>
              rcases idxNotice_eq o with hin | ⟨m3, hin⟩ <;>
              simp [hin, List.mem_append, List.mem_map]
        | true =>
          cases hle : env.locate_files_error with
          | some m2 =>
            rw [runRest_locErr cmd o args env io t0 tt m2 hne hv' he' hnd hle]
            simp only [List.append_assoc]
            refine ⟨_, rfl, ?_, ?_⟩ <;> intro b <;>
              rcases idxNotice_eq o with hin | ⟨m3, hin⟩ <;>
              simp [hin, List.mem_append, List.mem_map]
          | none =>
            rw [runRest_locOk cmd o args env io t0 tt hne hv' he' hnd hle] at h ⊢
            obtain ⟨m', _, htr⟩ := runPhases_err cmd o env io _ _ _ tt _ h
            rw [htr]
            simp only [List.append_assoc]
            refine ⟨_, rfl, ?_, ?_⟩ <;> intro b <;>
              rcases idxNotice_eq o with hin | ⟨m3, hin⟩ <;>
              simp [hin, List.mem_append, List.mem_map]

/-- C2 (amended): when an unrecoverable error propagates out of
acquisition or installation, the driver performs no cleanup at all before
surfacing it: the trace contains no `cleanup_files` call and no `rmtree`
of any directory (there is no try/finally around lines 265-296). -/
theorem claim2_amended_no_cleanup_on_error (cmd : Cmd) (o : Options)
    (args : List String) (env : Env) (m : String)
    (h : (run cmd o args env).err = some (PipError.collaboratorError m)) :
    (∀ b, Event.cleanupFiles b ∉ (run cmd o args env).trace) ∧
    (∀ d, Event.rmtree d ∉ (run cmd o args env).trace) := by
  rcases run_branches cmd o args env with hr | hr | ⟨q, hr, _, _⟩ | ⟨q, s', hr, _, _, _⟩
  · rw [hr] at h; exact absurd h (by simp)
  · rw [hr] at h; exact absurd h (by simp)
  · rw [hr] at h ⊢
    obtain ⟨u, htr, hc, hd⟩ := runRest_err_shape cmd q args env _ _ _ m h
    rw [htr]
    exact ⟨fun b => by simp [hc b], fun d => by simp [hd d]⟩
  · rw [hr] at h ⊢
    obtain ⟨u, htr, hc, hd⟩ := runRest_err_shape cmd q args env _ _ _ m h
    rw [htr]
    refine ⟨fun b => ?_, fun d => ?_⟩
    · simp [hc b]
    · simp [hd d]

/-- Environment in which `prepare_files` raises. -/
def env_perr : Env := { env0 with prepare_files_error := some "boom" }

/-- C2 counterexample to the claim as stated: at this input the run
allocated the temporary redirect directory, `prepare_files` raised, and
the driver surfaced the error without attempting the build-artifact
cleanup or the deletion of the temporary directory. -/
theorem claim2_counterexample :
    (run cmd0 opts_tgt ["a"] env_perr).err =
      some (PipError.collaboratorError "boom") ∧
    Event.mkdtemp "/tmp/T" ∈ (run cmd0 opts_tgt ["a"] env_perr).trace ∧
    Event.cleanupFiles false ∉ (run cmd0 opts_tgt ["a"] env_perr).trace ∧
    Event.rmtree "/tmp/T" ∉ (run cmd0 opts_tgt ["a"] env_perr).trace := by
  decide

/-- C2 (amended) witness at a concrete input. -/
theorem claim2_amended_witness :
    Event.cleanupFiles false ∉ (run cmd0 opts_tgt ["a"] env_perr).trace ∧
    Event.rmtree "/tmp/T" ∉ (run cmd0 opts_tgt ["a"] env_perr).trace :=
  ⟨(claim2_amended_no_cleanup_on_error cmd0 opts_tgt ["a"] env_perr "boom"
      (by decide)).1 false,
   (claim2_amended_no_cleanup_on_error cmd0 opts_tgt ["a"] env_perr "boom"
      (by decide)).2 "/tmp/T"⟩
